import Mathlib

/-!
Shallow embedding of the `gofsm` package (jsonfsm repository): the FSM data
model, `GetState`, `SetState`, `SendEvent`, `beginTransition`, `callAction`,
`Init`, `Register` and `New`, together with a big-step execution relation
used to state determinism.

Modelling conventions:
* Go errors (`fmt.Errorf` values) are modelled by the inductive `FsmErr`,
  one constructor per distinct error site, carrying the formatted data.
* A Go runtime panic (calling a nil handler obtained from a missing map key
  or a nil map, or writing to a nil map) is modelled by `Outcome.panic`.
* The unbounded recursion `SetState -> beginTransition -> SetState` is made
  structural with a fuel parameter; running out of fuel yields
  `Outcome.diverge`, so `(forall fuel, ... = diverge)` models nontermination.
* The unexported `handlers` field is `Option` of an association list:
  `none` is the Go nil map (its zero value before `Init` runs).
-/

namespace gofsm

/-- Transition represents an FSM transition (struct `Transition`). -/
structure Transition where
  From : String
  ToSuccess : String
  ToFailure : String
  Branch : Bool
  Event : String
deriving DecidableEq, Repr

/-- State represents an FSM state (struct `State`). -/
structure State where
  Name : String
  Action : String
  ActionArg : String
  WaitForEvent : Bool
  SendResponse : Bool
deriving DecidableEq, Repr

/-- Handler defines the signature the event handler function must have
(`type Handler func(string) bool`). -/
def Handler : Type := String → Bool

/-- FSM represents the state machine (struct `FSM`); `handlers = none`
models the Go nil map, the zero value of the unexported field. -/
structure FSM where
  InitialState : String
  States : List State
  CurrentState : State
  Transitions : List Transition
  ExpectedCode : String
  handlers : Option (List (String × Handler))

/-- Errors produced by the engine, one constructor per `fmt.Errorf` site. -/
inductive FsmErr where
  | stateNotFound (name : String)
  | noTransitionFromState (name : String)
  | noTransitionForEvent (state event : String)
deriving DecidableEq, Repr

/-- Result of running a piece of engine code: normal return, Go runtime
panic, or nontermination (fuel exhausted). -/
inductive Outcome (α : Type) where
  | ok : α → Outcome α
  | panic : Outcome α
  | diverge : Outcome α

/-- GetState returns the state with the matching name (first match of the
linear scan over `fsm.States`) and an error if not found. -/
def findState (states : List State) (name : String) : Option State :=
  states.find? (fun s => s.Name == name)

/-- Lookup in the handler map: `none` for a nil map or a missing key —
both give the Go nil `Handler`, which panics when called. -/
def lookupHandler (m : Option (List (String × Handler))) (name : String) :
    Option Handler :=
  match m with
  | none => none
  | some l => (l.find? (fun p => p.1 == name)).map Prod.snd

/-- callAction: `handler := fsm.handlers[fsm.CurrentState.Action];
return handler(actionArg)`. A missing entry yields a nil handler whose
call panics, modelled by `none`. -/
def callAction (fsm : FSM) (actionArg : String) : Option Bool :=
  match lookupHandler fsm.handlers fsm.CurrentState.Action with
  | none => none
  | some h => some (h actionArg)

/-- The destination choice of `beginTransition`: `if t.Branch && !success
\x7b nextState = t.ToFailure \x7d else \x7b nextState = t.ToSuccess \x7d`. -/
def nextStateOf (t : Transition) (success : Bool) : String :=
  if t.Branch && !success then t.ToFailure else t.ToSuccess

/-- The transition the auto-chain step of `SetState` follows: the first
`t` in declaration order with `t.From == fsm.CurrentState.Name`. -/
def autoTrans (fsm : FSM) : Option Transition :=
  fsm.Transitions.find? (fun t => t.From == fsm.CurrentState.Name)

/-- The transition `SendEvent` follows: the first `t` with
`t.From == fsm.CurrentState.Name && t.Event == eventName`. -/
def eventTrans (fsm : FSM) (eventName : String) : Option Transition :=
  fsm.Transitions.find?
    (fun t => t.From == fsm.CurrentState.Name && t.Event == eventName)

/-- Both `SetState` and `SendEvent` call `beginTransition` and then
`return nil`: the returned error is discarded while the state mutations
(threaded explicitly here) are kept; panic and divergence propagate. -/
def discardErr (o : Outcome (FSM × Option FsmErr)) :
    Outcome (FSM × Option FsmErr) :=
  match o with
  | .ok (fsm, _) => .ok (fsm, none)
  | .panic => .panic
  | .diverge => .diverge

/-- SetState sets the machine to the named state and resolves the
auto-chain. The body of `beginTransition` (run the action, choose the
destination, recurse into `SetState`) is inlined at the recursive call so
the recursion is structural on the fuel; `beginTransition` below is the
stand-alone version and `setState_succ_auto` proves the correspondence. -/
def setState : Nat → FSM → String → Outcome (FSM × Option FsmErr)
  | fuel, fsm, name =>
    match findState fsm.States name with
    | none => .ok (fsm, some (.stateNotFound name))
    | some newState =>
      let fsm1 : FSM := { fsm with CurrentState := newState }
      if fsm1.CurrentState.WaitForEvent then .ok (fsm1, none)
      else
        match autoTrans fsm1 with
        | none => .ok (fsm1, some (.noTransitionFromState fsm1.CurrentState.Name))
        | some t =>
          match fuel with
          | 0 => .diverge
          | fuel + 1 =>
            match callAction fsm1 fsm1.CurrentState.ActionArg with
            | none => .panic
            | some success =>
              discardErr (setState fuel fsm1 (nextStateOf t success))

/-- beginTransition runs the action of the current state, chooses the next
state from the boolean outcome of the action and the branch flag of the transition,
and returns `fsm.SetState(nextState)`. -/
def beginTransition (fuel : Nat) (fsm : FSM) (t : Transition)
    (actionArg : String) : Outcome (FSM × Option FsmErr) :=
  match callAction fsm actionArg with
  | none => .panic
  | some success => setState fuel fsm (nextStateOf t success)

/-- SendEvent scans for a transition matching the current state and the
event name; on a match it runs `beginTransition` and returns nil (the
inner error is discarded), otherwise it returns an error. -/
def sendEvent (fuel : Nat) (fsm : FSM) (eventName eventParam : String) :
    Outcome (FSM × Option FsmErr) :=
  match eventTrans fsm eventName with
  | some t => discardErr (beginTransition fuel fsm t eventParam)
  | none =>
    .ok (fsm, some (.noTransitionForEvent fsm.CurrentState.Name eventName))

/-- Init: `fsm.SetState(fsm.InitialState)` (error discarded), then
`fsm.handlers = map[string]Handler\x7b\x7d`. The handlers field is only
initialized after the whole initial auto-chain has run. -/
def init (fuel : Nat) (fsm : FSM) : Outcome FSM :=
  match setState fuel fsm fsm.InitialState with
  | .ok (fsm1, _) => .ok { fsm1 with handlers := some [] }
  | .panic => .panic
  | .diverge => .diverge

/-- Register: `fsm.handlers[name] = f`. Writing to a nil map panics. -/
def register (fsm : FSM) (name : String) (f : Handler) : Outcome FSM :=
  match fsm.handlers with
  | none => .panic
  | some l =>
    .ok { fsm with
          handlers := some ((name, f) :: l.filter (fun p => !(p.1 == name))) }

/-- New creates a state machine; the unexported `handlers` field is left
at its zero value (nil map). -/
def New (startState expectedCode : String) : FSM :=
  { InitialState := startState
    States := []
    CurrentState := ⟨"", "", "", false, false⟩
    Transitions := []
    ExpectedCode := expectedCode
    handlers := none }

/-- Unfolding lemma tying the inlined auto-chain step of `setState` to the
stand-alone `beginTransition`, mirroring the source where `SetState` calls
`fsm.beginTransition(t, fsm.CurrentState.ActionArg)` and returns nil. -/
theorem setState_succ_auto (fuel : Nat) (fsm : FSM) (name : String)
    (s : State) (t : Transition)
    (hs : findState fsm.States name = some s)
    (hw : s.WaitForEvent = false)
    (ht : autoTrans { fsm with CurrentState := s } = some t) :
    setState (fuel + 1) fsm name =
      discardErr
        (beginTransition fuel { fsm with CurrentState := s } t s.ActionArg) := by
  rw [setState, hs]
  simp only [hw, Bool.false_eq_true, if_false, ht, beginTransition]
  cases callAction { fsm with CurrentState := s } s.ActionArg with
  | none => rfl
  | some b => rfl

/-! Big-step execution relation: the same control flow as the fueled
functions, but as an inductive relation without fuel, so that determinism
(the security hyperproperty of the spec) is a genuine theorem about the
derivations rather than reflexivity of a function. `none` in the result
models a Go runtime panic; nontermination simply has no derivation. -/

/-- A call into the engine: `SetState`, `beginTransition` or `SendEvent`. -/
inductive Call where
  | setS (fsm : FSM) (name : String)
  | beginT (fsm : FSM) (t : Transition) (actionArg : String)
  | sendE (fsm : FSM) (eventName eventParam : String)

/-- Error-discarding on relation results, as done by the `return nil`
after the `beginTransition` calls in `SetState` and `SendEvent`. -/
def discardErrO (o : Option (FSM × Option FsmErr)) :
    Option (FSM × Option FsmErr) :=
  match o with
  | none => none
  | some (fsm, _) => some (fsm, none)

/-- Big-step semantics of the engine calls, one constructor per control
path of the Go source. -/
inductive Exec : Call → Option (FSM × Option FsmErr) → Prop where
  | set_notFound {fsm : FSM} {name : String} :
      findState fsm.States name = none →
      Exec (.setS fsm name) (some (fsm, some (.stateNotFound name)))
  | set_wait {fsm : FSM} {name : String} {s : State} :
      findState fsm.States name = some s →
      s.WaitForEvent = true →
      Exec (.setS fsm name) (some ({ fsm with CurrentState := s }, none))
  | set_auto {fsm : FSM} {name : String} {s : State} {t : Transition}
      {r : Option (FSM × Option FsmErr)} :
      findState fsm.States name = some s →
      s.WaitForEvent = false →
      autoTrans { fsm with CurrentState := s } = some t →
      Exec (.beginT { fsm with CurrentState := s } t s.ActionArg) r →
      Exec (.setS fsm name) (discardErrO r)
  | set_noTrans {fsm : FSM} {name : String} {s : State} :
      findState fsm.States name = some s →
      s.WaitForEvent = false →
      autoTrans { fsm with CurrentState := s } = none →
      Exec (.setS fsm name)
        (some ({ fsm with CurrentState := s },
               some (.noTransitionFromState s.Name)))
  | begin_panic {fsm : FSM} {t : Transition} {arg : String} :
      callAction fsm arg = none →
      Exec (.beginT fsm t arg) none
  | begin_ok {fsm : FSM} {t : Transition} {arg : String} {b : Bool}
      {r : Option (FSM × Option FsmErr)} :
      callAction fsm arg = some b →
      Exec (.setS fsm (nextStateOf t b)) r →
      Exec (.beginT fsm t arg) r
  | send_match {fsm : FSM} {en ep : String} {t : Transition}
      {r : Option (FSM × Option FsmErr)} :
      eventTrans fsm en = some t →
      Exec (.beginT fsm t ep) r →
      Exec (.sendE fsm en ep) (discardErrO r)
  | send_noMatch {fsm : FSM} {en ep : String} :
      eventTrans fsm en = none →
      Exec (.sendE fsm en ep)
        (some (fsm, some (.noTransitionForEvent fsm.CurrentState.Name en)))

/-- The execution relation is a partial function: any two derivations for
the same call agree on the result. -/
theorem execDeterministic {c : Call} {o1 o2 : Option (FSM × Option FsmErr)}
    (h1 : Exec c o1) (h2 : Exec c o2) : o1 = o2 := by
  induction h1 generalizing o2 with
  | set_notFound hf =>
    cases h2 <;> simp_all
  | set_wait hf hw =>
    cases h2 <;> simp_all
  | set_auto hf hw ht hb ih =>
    cases h2 with
    | set_notFound hf2 => simp_all
    | set_wait hf2 hw2 =>
      rw [hf] at hf2
      cases hf2
      simp_all
    | set_auto hf2 hw2 ht2 hb2 =>
      rw [hf] at hf2
      cases hf2
      rw [ht] at ht2
      cases ht2
      rw [ih hb2]
    | set_noTrans hf2 hw2 ht2 =>
      rw [hf] at hf2
      cases hf2
      simp_all
  | set_noTrans hf hw ht =>
    cases h2 with
    | set_notFound hf2 => simp_all
    | set_wait hf2 hw2 =>
      rw [hf] at hf2
      cases hf2
      simp_all
    | set_auto hf2 hw2 ht2 hb2 =>
      rw [hf] at hf2
      cases hf2
      simp_all
    | set_noTrans hf2 hw2 ht2 =>
      rw [hf] at hf2
      cases hf2
      rfl
  | begin_panic hc =>
    cases h2 <;> simp_all
  | begin_ok hc hs ih =>
    cases h2 with
    | begin_panic hc2 => simp_all
    | begin_ok hc2 hs2 =>
      rw [hc] at hc2
      cases hc2
      exact ih hs2
  | send_match ht hb ih =>
    cases h2 with
    | send_match ht2 hb2 =>
      rw [ht] at ht2
      cases ht2
      rw [ih hb2]
    | send_noMatch ht2 => simp_all
  | send_noMatch ht =>
    cases h2 with
    | send_match ht2 hb2 => simp_all
    | send_noMatch ht2 => rfl

/-- Prepend the observation of one step (new current-state name and returned
error) to the trace of the remaining run; a panic wipes the whole run. -/
def consTrace (stateName : String) (r : Option FsmErr)
    (o : Option (FSM × List (String × Option FsmErr))) :
    Option (FSM × List (String × Option FsmErr)) :=
  match o with
  | none => none
  | some (fsm, tr) => some (fsm, (stateName, r) :: tr)

/-- Feeding a sequence of (event, param) pairs to the engine through
`SendEvent`, recording after each call the name of the current state and the
returned error. -/
inductive RunExec :
    FSM → List (String × String) →
    Option (FSM × List (String × Option FsmErr)) → Prop where
  | nil {fsm : FSM} : RunExec fsm [] (some (fsm, []))
  | consPanic {fsm : FSM} {en ep : String} {rest : List (String × String)} :
      Exec (.sendE fsm en ep) none →
      RunExec fsm ((en, ep) :: rest) none
  | consOk {fsm fsm1 : FSM} {en ep : String} {r : Option FsmErr}
      {rest : List (String × String)}
      {o : Option (FSM × List (String × Option FsmErr))} :
      Exec (.sendE fsm en ep) (some (fsm1, r)) →
      RunExec fsm1 rest o →
      RunExec fsm ((en, ep) :: rest) (consTrace fsm1.CurrentState.Name r o)

/-- Determinism of whole runs: two derivations for the same machine and
the same event sequence produce the same final machine and the same
state/result trace. -/
theorem runExecDeterministic {fsm : FSM} {evs : List (String × String)}
    {o1 o2 : Option (FSM × List (String × Option FsmErr))}
    (h1 : RunExec fsm evs o1) (h2 : RunExec fsm evs o2) : o1 = o2 := by
  induction h1 generalizing o2 with
  | nil =>
    cases h2
    rfl
  | consPanic hs =>
    cases h2 with
    | consPanic hs2 => rfl
    | consOk hs2 hr2 => exact absurd (execDeterministic hs hs2) (by simp)
  | consOk hs hr ih =>
    cases h2 with
    | consPanic hs2 => exact absurd (execDeterministic hs hs2) (by simp)
    | consOk hs2 hr2 =>
      have he := execDeterministic hs hs2
      rw [Option.some_inj] at he
      cases he
      rw [ih hr2]

/-! Concrete machines used as witnesses and counterexamples. -/

/-- Zero value of the `State` struct (the Go default for `CurrentState`). -/
def zeroState : State := ⟨"", "", "", false, false⟩

/-- Non-waiting state `A` whose only outgoing transition is event-gated. -/
def stA : State := ⟨"A", "act", "x", false, false⟩

/-- Waiting state `B`. -/
def stB : State := ⟨"B", "act", "", true, false⟩

/-- Event-gated transition out of `A` (event `E`, not the empty string). -/
def trAE : Transition := ⟨"A", "B", "", false, "E"⟩

/-- Machine whose non-waiting state `A` has only the event-gated
transition `trAE` leaving it. -/
def fsmAE : FSM := ⟨"A", [stA, stB], zeroState, [trAE], "", some [("act", fun _ => true)]⟩

/-- Waiting state `W` bound to action `act`. -/
def stW : State := ⟨"W", "act", "", true, false⟩

/-- Transition from `W` on event `GO` to a state name that does not exist. -/
def trWGo : Transition := ⟨"W", "MISSING", "", false, "GO"⟩

/-- Machine sitting in `W` whose only transition dangles. -/
def fsmW : FSM := ⟨"W", [stW], stW, [trWGo], "", some [("act", fun _ => true)]⟩

/-- Machine sitting in `W` with an initialized but empty handler registry:
the action `act` bound to `W` has no registered handler. -/
def fsmNoHandler : FSM := ⟨"W", [stW], stW, [trWGo], "", some []⟩

/-- Non-waiting state `A` of the cyclic configuration. -/
def cycA : State := ⟨"A", "act", "", false, false⟩

/-- Non-waiting state `B` of the cyclic configuration. -/
def cycB : State := ⟨"B", "act", "", false, false⟩

/-- Unconditional transition `A -> B`. -/
def cycTA : Transition := ⟨"A", "B", "", false, ""⟩

/-- Unconditional transition `B -> A`. -/
def cycTB : Transition := ⟨"B", "A", "", false, ""⟩

/-- The cyclic configuration, parameterized by the current state so the
divergence induction can track it. -/
def cycBase (c : State) : FSM :=
  ⟨"A", [cycA, cycB], c, [cycTA, cycTB], "", some [("act", fun _ => true)]⟩

/-- The cyclic machine: two non-waiting states whose unconditional
transitions point at each other, handlers registered. -/
def cycFSM : FSM := cycBase zeroState

/-- In the cyclic configuration every fuel bound is exhausted: the chain
`A -> B -> A -> ...` never returns, whatever the starting current state. -/
theorem cyc_aux (n : Nat) : ∀ c : State,
    setState n (cycBase c) "A" = .diverge ∧
    setState n (cycBase c) "B" = .diverge := by
  induction n with
  | zero => intro c; exact ⟨rfl, rfl⟩
  | succ n ih =>
    intro c
    refine ⟨?_, ?_⟩
    · have h1 : setState (n + 1) (cycBase c) "A" =
          discardErr (setState n (cycBase cycA) "B") := rfl
      rw [h1, (ih cycA).2]
      rfl
    · have h2 : setState (n + 1) (cycBase c) "B" =
          discardErr (setState n (cycBase cycB) "A") := rfl
      rw [h2, (ih cycB).1]
      rfl

/-- Waiting state `B` reached by a well-formed event transition. -/
def stB2 : State := ⟨"B", "act", "", true, false⟩

/-- Transition from `W` on event `GO` to the existing waiting state `B`. -/
def trWB : Transition := ⟨"W", "B", "", false, "GO"⟩

/-- Well-formed machine sitting in `W`, handler registered. -/
def fsmR : FSM := ⟨"W", [stW, stB2], stW, [trWB], "", some [("act", fun _ => true)]⟩

/-- A complete run derivation for `fsmR` on the single event `GO`. -/
theorem runR : RunExec fsmR [("GO", "x")]
    (some ({ fsmR with CurrentState := stB2 }, [("B", none)])) := by
  have hb : Exec (.beginT fsmR trWB "x")
      (some ({ fsmR with CurrentState := stB2 }, none)) :=
    Exec.begin_ok (b := true) rfl (Exec.set_wait (s := stB2) rfl rfl)
  have hev : eventTrans fsmR "GO" = some trWB := rfl
  have hsend : Exec (.sendE fsmR "GO" "x")
      (some ({ fsmR with CurrentState := stB2 }, none)) :=
    Exec.send_match hev hb
  exact RunExec.consOk hsend RunExec.nil

/-! Claim theorems. -/

/-- C1: the claim says `Init()` on a configuration whose auto-chain states
form a cycle terminates and fails with `TransitionCycleDetected`. The code
has no cycle guard: on the two-state cycle `A <-> B` (both non-waiting,
unconditional transitions at each other, handlers registered) `SetState`
and `Init` exhaust every fuel bound, i.e. the chain resolution never
returns. -/
theorem c1_cycle_diverges : ∀ n : Nat,
    setState n cycFSM "A" = .diverge ∧ init n cycFSM = .diverge := by
  intro n
  have h := cyc_aux n zeroState
  refine ⟨h.1, ?_⟩
  have h2 : setState n cycFSM cycFSM.InitialState = .diverge := h.1
  simp only [init, h2]

/-- C2 counterexample: in `fsmAE` the non-waiting state `A` has a single
outgoing transition, gated on event `E` (not the empty string), and the
auto-chain of `SetState` follows it, landing in `B`: the engine does
follow an event-gated transition as the automatic next step. -/
theorem c2_counterexample :
    fsmAE.Transitions = [trAE] ∧ trAE.Event = "E" ∧
    setState 2 fsmAE "A" = .ok ({ fsmAE with CurrentState := stB }, none) :=
  ⟨rfl, rfl, rfl⟩

/-- C2 amended: during auto-chaining the engine follows the first
transition whose `From` field matches the new current state, without any
condition on its `event` field; in particular an event-gated transition
(`t.Event` nonempty) is followed as the automatic next step. -/
theorem c2_auto_ignores_event (fuel : Nat) (fsm : FSM) (name : String)
    (s : State) (t : Transition)
    (hs : findState fsm.States name = some s)
    (hw : s.WaitForEvent = false)
    (ht : autoTrans { fsm with CurrentState := s } = some t)
    (_he : t.Event ≠ "") :
    setState (fuel + 1) fsm name =
      discardErr
        (beginTransition fuel { fsm with CurrentState := s } t s.ActionArg) :=
  setState_succ_auto fuel fsm name s t hs hw ht

/-- C2 amended, witness: the amended statement instantiated on `fsmAE`,
whose auto step follows the transition gated on event `E`. -/
theorem c2_auto_ignores_event_witness :
    setState 2 fsmAE "A" =
      discardErr
        (beginTransition 1 { fsmAE with CurrentState := stA } trAE stA.ActionArg) :=
  c2_auto_ignores_event 1 fsmAE "A" stA trAE rfl rfl rfl (by decide)

/-- C3: destination selection of `beginTransition`: with `branch = true`
the destination is `toFailure` on a false outcome and `toSuccess` on a
true outcome; with `branch = false` it is always `toSuccess`; and when the
action ran with outcome `ok`, `beginTransition` continues exactly with
`SetState` of that destination. -/
theorem c3_branching (t : Transition) (ok : Bool) :
    (t.Branch = true → ok = false → nextStateOf t ok = t.ToFailure) ∧
    (t.Branch = true → ok = true → nextStateOf t ok = t.ToSuccess) ∧
    (t.Branch = false → nextStateOf t ok = t.ToSuccess) ∧
    (∀ (fuel : Nat) (fsm : FSM) (arg : String),
      callAction fsm arg = some ok →
      beginTransition fuel fsm t arg = setState fuel fsm (nextStateOf t ok)) := by
  refine ⟨?_, ?_, ?_, ?_⟩
  · intro hb ho
    simp [nextStateOf, hb, ho]
  · intro hb ho
    simp [nextStateOf, hb, ho]
  · intro hb
    simp [nextStateOf, hb]
  · intro fuel fsm arg hc
    rw [beginTransition, hc]

/-- C3 witness: the branching clauses evaluated on a concrete branching
transition and on the concrete machine `fsmW`. -/
theorem c3_branching_witness :
    nextStateOf ⟨"A", "S", "F", true, ""⟩ false = "F" ∧
    nextStateOf ⟨"A", "S", "F", true, ""⟩ true = "S" ∧
    nextStateOf ⟨"A", "S", "F", false, ""⟩ true = "S" ∧
    beginTransition 10 fsmW trWGo "p" =
      setState 10 fsmW (nextStateOf trWGo true) :=
  ⟨(c3_branching ⟨"A", "S", "F", true, ""⟩ false).1 rfl rfl,
   (c3_branching ⟨"A", "S", "F", true, ""⟩ true).2.1 rfl rfl,
   (c3_branching ⟨"A", "S", "F", false, ""⟩ true).2.2.1 rfl,
   (c3_branching trWGo true).2.2.2 10 fsmW "p" rfl⟩

/-- C4 counterexample: in `fsmW` the transition matched by event `GO`
leads to the nonexistent state `MISSING`, so `beginTransition` returns a
`StateNotFound` error — yet `SendEvent` returns success (`nil` error):
errors arising inside the initiated transition are not surfaced. -/
theorem c4_counterexample :
    beginTransition 10 fsmW trWGo "p" =
      .ok (fsmW, some (.stateNotFound "MISSING")) ∧
    sendEvent 10 fsmW "GO" "p" = .ok (fsmW, none) :=
  ⟨rfl, rfl⟩

/-- C4 amended: when a transition matches, `SendEvent` discards whatever
error `beginTransition` and its auto-chain produced and reports success;
engine errors are returned to the caller only from the no-matching-
transition path (and a handler panic still propagates as a panic). -/
theorem c4_sendEvent_discards_errors (fuel : Nat) (fsm fsm1 : FSM)
    (en ep : String) (t : Transition) (r : Option FsmErr)
    (ht : eventTrans fsm en = some t)
    (hb : beginTransition fuel fsm t ep = .ok (fsm1, r)) :
    sendEvent fuel fsm en ep = .ok (fsm1, none) := by
  simp only [sendEvent, ht, hb, discardErr]

/-- C4 amended, witness: on `fsmW`, the inner chain fails with
`StateNotFound` but `SendEvent` reports success. -/
theorem c4_sendEvent_discards_errors_witness :
    sendEvent 10 fsmW "GO" "p" = .ok (fsmW, none) :=
  c4_sendEvent_discards_errors 10 fsmW fsmW "GO" "p" trWGo
    (some (.stateNotFound "MISSING")) rfl rfl

/-- C5: the claim says a missing handler yields a returned
`HandlerNotRegistered` error without crashing the process. In the code
`callAction` indexes the handler map without an ok-check, so a missing
entry yields the Go nil handler and calling it panics: on `fsmNoHandler`
(registry initialized but empty) the `GO` event crashes instead of
returning an error. -/
theorem c5_missing_handler_panics :
    callAction fsmNoHandler "p" = none ∧
    sendEvent 10 fsmNoHandler "GO" "p" = Outcome.panic :=
  ⟨rfl, rfl⟩

/-- C6: when no transition matches the current state and the sent event,
`SendEvent` returns the no-matching-transition error and the machine —
current state included — is exactly what it was before the call. -/
theorem c6_sendEvent_noMatch_unchanged (fuel : Nat) (fsm : FSM)
    (en ep : String)
    (h : ∀ t ∈ fsm.Transitions, ¬(t.From = fsm.CurrentState.Name ∧ t.Event = en)) :
    sendEvent fuel fsm en ep =
      .ok (fsm, some (.noTransitionForEvent fsm.CurrentState.Name en)) := by
  have hf : eventTrans fsm en = none := by
    rw [eventTrans, List.find?_eq_none]
    intro t ht
    simp only [Bool.and_eq_true, beq_iff_eq, not_and]
    intro h1 h2
    exact h t ht ⟨h1, h2⟩
  simp only [sendEvent, hf]

/-- C6 witness: sending the unknown event `NOPE` to `fsmR` leaves the
machine unchanged and returns the error. -/
theorem c6_sendEvent_noMatch_unchanged_witness :
    sendEvent 10 fsmR "NOPE" "p" =
      .ok (fsmR, some (.noTransitionForEvent "W" "NOPE")) :=
  c6_sendEvent_noMatch_unchanged 10 fsmR "NOPE" "p" (by decide)

/-- C7: `SetState` with a name matching no configured state returns the
`StateNotFound` error and the whole machine value is returned untouched. -/
theorem c7_setState_notFound_noop (fuel : Nat) (fsm : FSM) (name : String)
    (h : ∀ s ∈ fsm.States, s.Name ≠ name) :
    setState fuel fsm name = .ok (fsm, some (.stateNotFound name)) := by
  have hf : findState fsm.States name = none := by
    rw [findState, List.find?_eq_none]
    intro s hs
    simp only [beq_iff_eq]
    exact h s hs
  simp only [setState, hf]

/-- C7 witness: `SetState` of the unknown name `NOWHERE` on `fsmR`. -/
theorem c7_setState_notFound_noop_witness :
    setState 10 fsmR "NOWHERE" =
      .ok (fsmR, some (.stateNotFound "NOWHERE")) :=
  c7_setState_notFound_noop 10 fsmR "NOWHERE" (by decide)

/-- C8: determinism: two runs from the same configuration and current
state, with the same handlers and the same (event, param) sequence,
produce the same state/result trace and the same final machine. -/
theorem c8_run_deterministic (fsm1 fsm2 : FSM)
    (evs1 evs2 : List (String × String))
    (o1 o2 : Option (FSM × List (String × Option FsmErr)))
    (hm : fsm1 = fsm2) (he : evs1 = evs2)
    (h1 : RunExec fsm1 evs1 o1) (h2 : RunExec fsm2 evs2 o2) : o1 = o2 := by
  subst hm
  subst he
  exact runExecDeterministic h1 h2

/-- C8 witness: the determinism theorem applied to two derivations of the
concrete run of `fsmR` on the event `GO`. -/
theorem c8_run_deterministic_witness :
    (some ({ fsmR with CurrentState := stB2 }, [("B", none)]) :
      Option (FSM × List (String × Option FsmErr))) =
    some ({ fsmR with CurrentState := stB2 }, [("B", none)]) :=
  c8_run_deterministic fsmR fsmR [("GO", "x")] [("GO", "x")] _ _ rfl rfl runR runR

/-- C9: `Init` runs `SetState(InitialState)` before initializing the
handler registry, so on a machine whose handlers field is still nil (as
`New` and JSON decoding leave it) and whose initial state does not wait
for an event, the handler lookup of the auto-chain hits the nil registry and
the nil handler call panics; likewise `Register` before `Init` writes to
the nil map and panics. -/
theorem c9_init_uninitialized_registry (fuel : Nat) (fsm : FSM)
    (s : State) (t : Transition)
    (hh : fsm.handlers = none)
    (hs : findState fsm.States fsm.InitialState = some s)
    (hw : s.WaitForEvent = false)
    (ht : autoTrans { fsm with CurrentState := s } = some t) :
    init (fuel + 1) fsm = .panic ∧
      ∀ (nm : String) (f : Handler), register fsm nm f = .panic := by
  have hca : callAction { fsm with CurrentState := s } s.ActionArg = none := by
    simp [callAction, lookupHandler, hh]
  constructor
  · have hss : setState (fuel + 1) fsm fsm.InitialState = .panic := by
      rw [setState_succ_auto fuel fsm fsm.InitialState s t hs hw ht,
          beginTransition, hca]
      rfl
    simp only [init, hss]
  · intro nm f
    simp [register, hh]

/-- C9 witness: a machine shaped like the `New`/JSON result (nil handler
registry) whose initial state `A` is non-waiting: `Init` panics during the
auto-chain and `Register` before `Init` panics. -/
theorem c9_init_uninitialized_registry_witness :
    init 5 ⟨"A", [cycA, cycB], zeroState, [cycTA, cycTB], "", none⟩ = .panic ∧
    register ⟨"A", [cycA, cycB], zeroState, [cycTA, cycTB], "", none⟩
      "act" (fun _ => true) = .panic := by
  have h := c9_init_uninitialized_registry 4
    ⟨"A", [cycA, cycB], zeroState, [cycTA, cycTB], "", none⟩
    cycA cycTA rfl rfl rfl rfl
  exact ⟨h.1, h.2 "act" (fun _ => true)⟩

/-- C10: `SetState` on an existing non-waiting state with no outgoing
transition returns an error, but the current state has already been
mutated to the named state: the failure does not restore the previous
current state. -/
theorem c10_setState_mutates_before_error (fuel : Nat) (fsm : FSM)
    (name : String) (s : State)
    (hs : findState fsm.States name = some s)
    (hw : s.WaitForEvent = false)
    (ht : ∀ t ∈ fsm.Transitions, t.From ≠ s.Name) :
    setState fuel fsm name =
      .ok ({ fsm with CurrentState := s },
           some (.noTransitionFromState s.Name)) := by
  have hf : autoTrans { fsm with CurrentState := s } = none := by
    rw [autoTrans, List.find?_eq_none]
    intro t htm
    simp only [beq_iff_eq]
    exact ht t htm
  simp only [setState, hs, hw, Bool.false_eq_true, if_false, hf]

/-- C10 witness: a machine whose state `D` is non-waiting and has no
outgoing transition: `SetState` returns the error with the current state
already moved to `D`. -/
theorem c10_setState_mutates_before_error_witness :
    setState 3 ⟨"D", [⟨"D", "act", "", false, false⟩], zeroState, [], "", some []⟩ "D" =
      .ok (⟨"D", [⟨"D", "act", "", false, false⟩],
            ⟨"D", "act", "", false, false⟩, [], "", some []⟩,
           some (.noTransitionFromState "D")) :=
  c10_setState_mutates_before_error 3
    ⟨"D", [⟨"D", "act", "", false, false⟩], zeroState, [], "", some []⟩
    "D" ⟨"D", "act", "", false, false⟩ rfl rfl (by decide)

end gofsm
